import Mathlib

/-!
Verification development for the NASCON event-management system
(registration, payment reconciliation, and accommodation allocation).

The definitions below are a shallow embedding of the MySQL schema,
triggers, and stored procedures in `NASCON.sql` and of the Express
route handlers in `src/routes`.  Dates and timestamps are modelled as
natural numbers (day ordinals), SQL `DECIMAL` amounts as naturals, and
nullable columns as `Option`.
-/

namespace NASCON

/-- `Availability` column of table `Accommodations`:
`ENUM('Available', 'Unavailable', 'Maintenance')`. -/
inductive Availability
  | Available
  | Unavailable
  | Maintenance
  deriving DecidableEq, Repr

/-- `Status` column of table `AccommodationRequests`:
`ENUM('Pending', 'Approved', 'Rejected', 'Cancelled', 'Waitlisted')`. -/
inductive ReqStatus
  | Pending
  | Approved
  | Rejected
  | Cancelled
  | Waitlisted
  deriving DecidableEq, Repr

/-- A row of table `Accommodations` (the columns read by the
`AssignAccommodation` procedure: `AccommodationID`, `Capacity`,
`Availability`). -/
structure Accommodation where
  accommodationID : Nat
  capacity : Nat
  availability : Availability
  deriving DecidableEq, Repr

/-- A row of table `AccommodationRequests` (the columns read or written
by the `AssignAccommodation` procedure). -/
structure AccommodationRequest where
  requestID : Nat
  userID : Nat
  checkInDate : Nat
  checkOutDate : Nat
  numberOfPeople : Nat
  status : ReqStatus
  assignedAccommodationID : Option Nat
  assignmentNotes : Option String
  deriving DecidableEq, Repr

/-- The `NOT EXISTS` subquery of `AssignAccommodation`: is there an
`Approved` request, other than the one being processed, assigned to
accommodation `aid` whose `[CheckInDate, CheckOutDate)` range overlaps
the processed request's range (`ar.CheckInDate < v_CheckOutDate AND
ar.CheckOutDate > v_CheckInDate`)? -/
def hasOverlapConflict (reqs : List AccommodationRequest) (rid aid cin cout : Nat) : Bool :=
  reqs.any fun ar =>
    ar.assignedAccommodationID == some aid &&
    ar.status == ReqStatus.Approved &&
    ar.requestID != rid &&
    decide (ar.checkInDate < cout) &&
    decide (ar.checkOutDate > cin)

/-- The `WHERE` clause of the candidate query of `AssignAccommodation`:
`Capacity >= v_NumberOfPeople AND Availability != 'Unavailable' AND NOT
EXISTS (overlapping approved request)`. -/
def eligibleAccommodation (reqs : List AccommodationRequest)
    (r : AccommodationRequest) (a : Accommodation) : Bool :=
  decide (r.numberOfPeople ≤ a.capacity) &&
  a.availability != Availability.Unavailable &&
  !hasOverlapConflict reqs r.requestID a.accommodationID r.checkInDate r.checkOutDate

/-- The candidate selection `SELECT ... ORDER BY a.Capacity ASC LIMIT 1`
of `AssignAccommodation`.  The `ORDER BY` key is `Capacity` alone, so on
capacity ties the row returned is whichever the storage engine yields
first: the selection is a relation, not a function — it may return any
eligible accommodation of minimal capacity. -/
def selectsCandidate (accs : List Accommodation) (reqs : List AccommodationRequest)
    (r : AccommodationRequest) (a : Accommodation) : Prop :=
  a ∈ accs ∧ eligibleAccommodation reqs r a = true ∧
    ∀ b ∈ accs, eligibleAccommodation reqs r b = true → a.capacity ≤ b.capacity

instance (accs : List Accommodation) (reqs : List AccommodationRequest)
    (r : AccommodationRequest) (a : Accommodation) :
    Decidable (selectsCandidate accs reqs r a) := by
  unfold selectsCandidate; infer_instance

/-- The `UPDATE AccommodationRequests SET Status = 'Approved', ...` arm
of `AssignAccommodation`. -/
def approveRequest (reqs : List AccommodationRequest) (rid aid : Nat) :
    List AccommodationRequest :=
  reqs.map fun r =>
    if r.requestID == rid then
      { r with status := ReqStatus.Approved,
               assignedAccommodationID := some aid,
               assignmentNotes := some ("Automatically assigned to accommodation ID: "
                 ++ toString aid ++ " by procedure.") }
    else r

/-- The `UPDATE AccommodationRequests SET Status = 'Rejected', ...` arm
of `AssignAccommodation`. -/
def rejectRequest (reqs : List AccommodationRequest) (rid : Nat) :
    List AccommodationRequest :=
  reqs.map fun r =>
    if r.requestID == rid then
      { r with status := ReqStatus.Rejected,
               assignmentNotes :=
                 some "No suitable accommodation available matching capacity and date availability." }
    else r

/-- One run of the stored procedure `AssignAccommodation` on request
`rid`, as a relation between the prior and posterior contents of
`AccommodationRequests` (the `Accommodations` table is read-only here).
The four constructors mirror the procedure's four exits: request not
found, request already processed, candidate found (request approved),
no candidate (request rejected). -/
inductive AssignStep (accs : List Accommodation) :
    List AccommodationRequest → Nat → List AccommodationRequest → Prop
  | notFound (reqs : List AccommodationRequest) (rid : Nat)
      (h : reqs.find? (fun r => r.requestID == rid) = none) :
      AssignStep accs reqs rid reqs
  | alreadyProcessed (reqs : List AccommodationRequest) (rid : Nat)
      (r : AccommodationRequest)
      (hfind : reqs.find? (fun q => q.requestID == rid) = some r)
      (hstat : r.status ≠ ReqStatus.Pending) :
      AssignStep accs reqs rid reqs
  | approved (reqs : List AccommodationRequest) (rid : Nat)
      (r : AccommodationRequest) (a : Accommodation)
      (hfind : reqs.find? (fun q => q.requestID == rid) = some r)
      (hstat : r.status = ReqStatus.Pending)
      (hsel : selectsCandidate accs reqs r a) :
      AssignStep accs reqs rid (approveRequest reqs rid a.accommodationID)
  | rejected (reqs : List AccommodationRequest) (rid : Nat)
      (r : AccommodationRequest)
      (hfind : reqs.find? (fun q => q.requestID == rid) = some r)
      (hstat : r.status = ReqStatus.Pending)
      (hnone : ∀ a ∈ accs, eligibleAccommodation reqs r a = false) :
      AssignStep accs reqs rid (rejectRequest reqs rid)

/-- Allocation invariant: no two distinct `Approved` requests assigned
to the same accommodation have overlapping `[checkIn, checkOut)`
ranges. -/
def NoOverlapInv (reqs : List AccommodationRequest) : Prop :=
  ∀ r1 ∈ reqs, ∀ r2 ∈ reqs,
    r1.requestID ≠ r2.requestID →
    r1.status = ReqStatus.Approved → r2.status = ReqStatus.Approved →
    r1.assignedAccommodationID ≠ none →
    r1.assignedAccommodationID = r2.assignedAccommodationID →
    ¬(r1.checkInDate < r2.checkOutDate ∧ r2.checkInDate < r1.checkOutDate)

instance (reqs : List AccommodationRequest) : Decidable (NoOverlapInv reqs) := by
  unfold NoOverlapInv; infer_instance

/-- Request IDs are pairwise distinct (`RequestID` is the primary key of
`AccommodationRequests`). -/
def UniqueRequestIDs (reqs : List AccommodationRequest) : Prop :=
  List.Pairwise (fun r1 r2 => r1.requestID ≠ r2.requestID) reqs

instance (reqs : List AccommodationRequest) : Decidable (UniqueRequestIDs reqs) := by
  unfold UniqueRequestIDs; infer_instance

theorem unique_ids_eq {reqs : List AccommodationRequest}
    (h : UniqueRequestIDs reqs) {r1 r2 : AccommodationRequest}
    (h1 : r1 ∈ reqs) (h2 : r2 ∈ reqs) (hid : r1.requestID = r2.requestID) :
    r1 = r2 := by
  induction reqs with
  | nil => cases h1
  | cons x xs ih =>
    rcases List.pairwise_cons.mp h with ⟨hx, hxs⟩
    rcases List.mem_cons.mp h1 with rfl | h1'
    · rcases List.mem_cons.mp h2 with rfl | h2'
      · rfl
      · exact absurd hid (hx r2 h2')
    · rcases List.mem_cons.mp h2 with rfl | h2'
      · exact absurd hid.symm (hx r1 h1')
      · exact ih hxs h1' h2'

theorem eligible_no_occupant {reqs : List AccommodationRequest}
    {r : AccommodationRequest} {a : Accommodation}
    (helig : eligibleAccommodation reqs r a = true) :
    ∀ ar ∈ reqs, ar.assignedAccommodationID = some a.accommodationID →
      ar.status = ReqStatus.Approved → ar.requestID ≠ r.requestID →
      ¬(ar.checkInDate < r.checkOutDate ∧ ar.checkOutDate > r.checkInDate) := by
  have hconf : hasOverlapConflict reqs r.requestID a.accommodationID
      r.checkInDate r.checkOutDate = false := by
    simp only [eligibleAccommodation, Bool.and_eq_true, Bool.not_eq_true'] at helig
    exact helig.2
  simp only [hasOverlapConflict, List.any_eq_false, Bool.and_eq_true, beq_iff_eq,
    bne_iff_ne, decide_eq_true_eq, not_and, and_imp, ne_eq] at hconf
  intro ar har hass hst hne hover
  exact hconf ar har hass hst hne hover.1 hover.2

/-- C1: the `AssignAccommodation` procedure preserves the invariant
that the `[checkIn, checkOut)` ranges of distinct `Approved` requests
assigned to the same accommodation never overlap (overlap of `[a,b)`
and `[c,d)` being `a < d ∧ c < b`): it only approves a pending request
into an accommodation with no overlapping `Approved` occupant,
regardless of headcount. -/
theorem assign_preserves_no_overlap
    (accs : List Accommodation) (reqs reqs' : List AccommodationRequest) (rid : Nat)
    (hUniq : UniqueRequestIDs reqs) (hInv : NoOverlapInv reqs)
    (hStep : AssignStep accs reqs rid reqs') :
    NoOverlapInv reqs' := by
  cases hStep with
  | notFound _ => exact hInv
  | alreadyProcessed r hfind hstat => exact hInv
  | rejected r hfind hstat hnone =>
      intro r1 h1 r2 h2 hne hs1 hs2 hn1 heq
      rcases List.mem_map.mp h1 with ⟨q1, hq1, rfl⟩
      rcases List.mem_map.mp h2 with ⟨q2, hq2, rfl⟩
      rcases Bool.eq_false_or_eq_true (q1.requestID == rid) with e1 | e1
      · simp only [e1, if_true] at hs1
        exact absurd hs1 (by simp)
      · rcases Bool.eq_false_or_eq_true (q2.requestID == rid) with e2 | e2
        · simp only [e2, if_true] at hs2
          exact absurd hs2 (by simp)
        · simp only [e1, e2, Bool.false_eq_true, if_false] at hne hs1 hs2 hn1 heq ⊢
          exact hInv q1 hq1 q2 hq2 hne hs1 hs2 hn1 heq
  | approved r a hfind hstat hsel =>
      have hrmem : r ∈ reqs := List.mem_of_find?_eq_some hfind
      have hrid : r.requestID = rid := by
        have := List.find?_some hfind
        simpa using this
      rcases hsel with ⟨hamem, helig, hmin⟩
      have hocc := eligible_no_occupant helig
      intro r1 h1 r2 h2 hne hs1 hs2 hn1 heq
      rcases List.mem_map.mp h1 with ⟨q1, hq1, rfl⟩
      rcases List.mem_map.mp h2 with ⟨q2, hq2, rfl⟩
      rcases Bool.eq_false_or_eq_true (q1.requestID == rid) with e1 | e1
      · rcases Bool.eq_false_or_eq_true (q2.requestID == rid) with e2 | e2
        · -- both rows would be the processed request: impossible for a distinct pair
          exfalso
          apply hne
          simp only [e1, e2, if_true]
          exact (beq_iff_eq.mp e1).trans (beq_iff_eq.mp e2).symm
        · -- q1 is the newly approved request (q1 = r), q2 untouched
          have hq1r : q1 = r :=
            unique_ids_eq hUniq hq1 hrmem ((beq_iff_eq.mp e1).trans hrid.symm)
          subst hq1r
          simp only [e1, e2, Bool.false_eq_true, if_false, if_true] at hne hs2 heq ⊢
          have hass2 : q2.assignedAccommodationID = some a.accommodationID := heq.symm
          have hne2 : q2.requestID ≠ q1.requestID := fun h => hne h.symm
          intro hover
          exact hocc q2 hq2 hass2 hs2 hne2 ⟨hover.2, hover.1⟩
      · rcases Bool.eq_false_or_eq_true (q2.requestID == rid) with e2 | e2
        · -- q2 is the newly approved request (q2 = r), q1 untouched
          have hq2r : q2 = r :=
            unique_ids_eq hUniq hq2 hrmem ((beq_iff_eq.mp e2).trans hrid.symm)
          subst hq2r
          simp only [e1, e2, Bool.false_eq_true, if_false, if_true] at hne hs1 hn1 heq ⊢
          have hass1 : q1.assignedAccommodationID = some a.accommodationID := heq
          have hne1 : q1.requestID ≠ q2.requestID := hne
          intro hover
          exact hocc q1 hq1 hass1 hs1 hne1 hover
        · -- both rows untouched
          simp only [e1, e2, Bool.false_eq_true, if_false] at hne hs1 hs2 hn1 heq ⊢
          exact hInv q1 hq1 q2 hq2 hne hs1 hs2 hn1 heq

/-- Scenario data: one available two-person accommodation and one
pending two-person request. -/
def wAcc : Accommodation :=
  { accommodationID := 5, capacity := 2, availability := Availability.Available }

/-- Scenario data: pending request for 2 people over `[10, 12)`. -/
def wReq : AccommodationRequest :=
  { requestID := 1, userID := 3, checkInDate := 10, checkOutDate := 12,
    numberOfPeople := 2, status := ReqStatus.Pending,
    assignedAccommodationID := none, assignmentNotes := none }

theorem assign_preserves_no_overlap_witness :
    NoOverlapInv (approveRequest [wReq] 1 5) :=
  assign_preserves_no_overlap [wAcc] [wReq] (approveRequest [wReq] 1 5) 1
    (by decide) (by decide)
    (AssignStep.approved [wReq] 1 wReq wAcc (by decide) (by decide) (by decide))

/-- C5 (amended): any accommodation the candidate query can return is
eligible and of minimal capacity among the eligible candidates; in
particular any two possible selections from the same snapshot have
equal capacity.  (The identity of the selection on capacity ties is
not determined: see the counterexample.) -/
theorem assign_selection_minimal_capacity
    (accs : List Accommodation) (reqs : List AccommodationRequest)
    (r : AccommodationRequest) (a b : Accommodation)
    (ha : selectsCandidate accs reqs r a) (hb : selectsCandidate accs reqs r b) :
    eligibleAccommodation reqs r a = true ∧
    a.capacity = b.capacity ∧
    ∀ c ∈ accs, eligibleAccommodation reqs r c = true → a.capacity ≤ c.capacity :=
  ⟨ha.2.1, Nat.le_antisymm (ha.2.2 b hb.1 hb.2.1) (hb.2.2 a ha.1 ha.2.1), ha.2.2⟩

theorem assign_selection_minimal_capacity_witness :
    eligibleAccommodation [] wReq wAcc = true ∧
    wAcc.capacity = wAcc.capacity ∧
    ∀ c ∈ [wAcc], eligibleAccommodation [] wReq c = true → wAcc.capacity ≤ c.capacity :=
  assign_selection_minimal_capacity [wAcc] [] wReq wAcc wAcc (by decide) (by decide)

/-- Two distinct accommodations of equal capacity 2, both available. -/
def tieAccA : Accommodation :=
  { accommodationID := 1, capacity := 2, availability := Availability.Available }

/-- Second equal-capacity accommodation for the tie-break counterexample. -/
def tieAccB : Accommodation :=
  { accommodationID := 2, capacity := 2, availability := Availability.Available }

/-- C5 counterexample: the candidate query of `AssignAccommodation`
orders by `Capacity` alone (`ORDER BY a.Capacity ASC LIMIT 1`, no
secondary key), so on a snapshot holding two equal-capacity eligible
accommodations both are possible selections: the selection is not a
deterministic function of the snapshot. -/
theorem assign_selection_not_deterministic :
    ¬ (∀ a b : Accommodation,
        selectsCandidate [tieAccA, tieAccB] [] wReq a →
        selectsCandidate [tieAccA, tieAccB] [] wReq b → a = b) := by
  intro h
  exact absurd (h tieAccA tieAccB (by decide) (by decide)) (by decide)

/-! ## Payments and the registration state machine -/

/-- `Status` column of table `Registrations`:
`ENUM('pending', 'confirmed', 'cancelled', 'waitlisted', 'checked_in')`. -/
inductive RegStatus
  | pending
  | confirmed
  | cancelled
  | waitlisted
  | checked_in
  deriving DecidableEq, Repr

/-- `PaymentStatus` column of table `Registrations`:
`ENUM('pending', 'paid', 'failed', 'refunded', 'not_required')`. -/
inductive RegPaymentStatus
  | pending
  | paid
  | failed
  | refunded
  | not_required
  deriving DecidableEq, Repr

/-- `Status` column of table `Payments`:
`ENUM('pending', 'completed', 'failed', 'refunded')`. -/
inductive PaymentStatus
  | pending
  | completed
  | failed
  | refunded
  deriving DecidableEq, Repr

/-- A row of table `Registrations`. -/
structure Registration where
  registrationID : Nat
  userID : Nat
  eventID : Nat
  teamID : Option Nat
  registrationDate : Nat
  status : RegStatus
  paymentStatus : RegPaymentStatus
  specialRequirements : Option String
  deriving DecidableEq, Repr

/-- A row of table `Payments` (the columns the triggers read). -/
structure Payment where
  paymentID : Nat
  amount : Nat
  status : PaymentStatus
  relatedRegistrationID : Option Nat
  relatedContractID : Option Nat
  deriving DecidableEq, Repr

/-- The shared body of the triggers `validate_payment_relation_on_insert`
and `validate_payment_relation_on_update`: signal an error if both
related IDs are `NULL`, signal an error if both are non-`NULL`,
otherwise accept the row. -/
def validPaymentRelation (reg con : Option Nat) : Bool :=
  match reg, con with
  | none, none => false
  | some _, some _ => false
  | _, _ => true

/-- `INSERT INTO Payments`, guarded by the before-insert trigger
`validate_payment_relation_on_insert`. -/
def insertPayment (p : Payment) (ps : List Payment) : Except String (List Payment) :=
  if validPaymentRelation p.relatedRegistrationID p.relatedContractID then
    Except.ok (ps ++ [p])
  else
    Except.error "Payment must be related to exactly one of a Registration or a Sponsorship Contract."

/-- `UPDATE Payments ... WHERE PaymentID = pid`, guarded per row by the
before-update trigger `validate_payment_relation_on_update`; if the
trigger signals on any affected row, the whole statement aborts and the
table is left untouched. -/
def updatePayment (pid : Nat) (f : Payment → Payment) (ps : List Payment) :
    Except String (List Payment) :=
  if ps.all fun q => !(q.paymentID == pid) ||
      validPaymentRelation (f q).relatedRegistrationID (f q).relatedContractID then
    Except.ok (ps.map fun q => if q.paymentID == pid then f q else q)
  else
    Except.error "Payment must be related to exactly one of a Registration or a Sponsorship Contract."

/-- A write against the `Payments` table: an insert of a new row or an
update of the row(s) with a given `PaymentID`. -/
inductive PaymentWrite
  | insert (p : Payment)
  | update (pid : Nat) (f : Payment → Payment)

/-- Apply one write; a write rejected by a trigger leaves the table in
its prior state. -/
def applyPaymentWrite (ps : List Payment) (w : PaymentWrite) : List Payment :=
  match w with
  | PaymentWrite.insert p =>
      match insertPayment p ps with
      | Except.ok ps' => ps'
      | Except.error _ => ps
  | PaymentWrite.update pid f =>
      match updatePayment pid f ps with
      | Except.ok ps' => ps'
      | Except.error _ => ps

/-- Run a sequence of writes. -/
def runPaymentWrites (ps : List Payment) (ws : List PaymentWrite) : List Payment :=
  ws.foldl applyPaymentWrite ps

/-- XOR invariant of the payment reconciliation unit: every payment is
related to exactly one of a registration and a sponsorship contract. -/
def PaymentXOR (ps : List Payment) : Prop :=
  ∀ p ∈ ps, validPaymentRelation p.relatedRegistrationID p.relatedContractID = true

instance (ps : List Payment) : Decidable (PaymentXOR ps) := by
  unfold PaymentXOR; infer_instance

theorem applyPaymentWrite_xor (ps : List Payment) (w : PaymentWrite)
    (h : PaymentXOR ps) : PaymentXOR (applyPaymentWrite ps w) := by
  cases w with
  | insert p =>
      by_cases hv :
          validPaymentRelation p.relatedRegistrationID p.relatedContractID = true
      · simp only [applyPaymentWrite, insertPayment, hv, if_true]
        intro q hq
        rcases List.mem_append.mp hq with h1 | h1
        · exact h q h1
        · rw [List.mem_singleton.mp h1]; exact hv
      · simp only [applyPaymentWrite, insertPayment, hv, if_false]
        exact h
  | update pid f =>
      by_cases hv : (ps.all fun q => !(q.paymentID == pid) ||
          validPaymentRelation (f q).relatedRegistrationID (f q).relatedContractID) = true
      · simp only [applyPaymentWrite, updatePayment, hv, if_true]
        intro q hq
        rcases List.mem_map.mp hq with ⟨q0, hq0, rfl⟩
        rcases Bool.eq_false_or_eq_true (q0.paymentID == pid) with e | e
        · have hall := List.all_eq_true.mp hv q0 hq0
          simp only [e, Bool.not_true, Bool.false_or] at hall
          simp only [e, if_true]
          exact hall
        · simp only [e, Bool.false_eq_true, if_false]
          exact h q0 hq0
      · simp only [applyPaymentWrite, updatePayment, hv, if_false]
        exact h

/-- C3: the XOR invariant — exactly one of `RelatedRegistrationID` and
`RelatedContractID` is non-`NULL` — holds after any sequence of inserts
and updates on `Payments` (each write is guarded by the validation
triggers), and a rejected update leaves the table in its prior state. -/
theorem payment_xor_invariant (ps : List Payment) (ws : List PaymentWrite)
    (h : PaymentXOR ps) :
    PaymentXOR (runPaymentWrites ps ws) ∧
    ∀ pid f msg, updatePayment pid f ps = Except.error msg →
      applyPaymentWrite ps (PaymentWrite.update pid f) = ps := by
  constructor
  · induction ws generalizing ps with
    | nil => exact h
    | cons w ws ih => exact ih (applyPaymentWrite ps w) (applyPaymentWrite_xor ps w h)
  · intro pid f msg hmsg
    simp only [applyPaymentWrite, hmsg]

/-- A pending registration-fee payment of 500 for registration 1. -/
def wPay : Payment :=
  { paymentID := 1, amount := 500, status := PaymentStatus.pending,
    relatedRegistrationID := some 1, relatedContractID := none }

theorem payment_xor_invariant_witness :
    PaymentXOR (runPaymentWrites [] [PaymentWrite.insert wPay]) ∧
    ∀ pid f msg, updatePayment pid f [] = Except.error msg →
      applyPaymentWrite [] (PaymentWrite.update pid f) = [] :=
  payment_xor_invariant [] [PaymentWrite.insert wPay] (by decide)

/-- The after-update trigger `ConfirmRegistrationOnPayment`: when a
payment's status changes from anything other than `completed` to
`completed` and the payment is related to a registration, set that
registration to `confirmed`/`paid`, but only if it is currently
`pending` or `waitlisted`. -/
def confirmRegistrationOnPayment (oldStatus newStatus : PaymentStatus)
    (relReg : Option Nat) (regs : List Registration) : List Registration :=
  if oldStatus ≠ PaymentStatus.completed ∧ newStatus = PaymentStatus.completed ∧
      relReg.isSome then
    regs.map fun r =>
      if relReg = some r.registrationID ∧
          (r.status = RegStatus.pending ∨ r.status = RegStatus.waitlisted) then
        { r with status := RegStatus.confirmed, paymentStatus := RegPaymentStatus.paid }
      else r
  else regs

/-- The contents of the `Payments` and `Registrations` tables. -/
structure PaymentDb where
  payments : List Payment
  registrations : List Registration
  deriving DecidableEq, Repr

/-- `completePayment`: the statement
`UPDATE Payments SET Status = 'completed' WHERE PaymentID = pid`
(as run, e.g., by the seed script), with both triggers on `Payments`:
the before-update XOR validation (via `updatePayment`) and the
after-update `ConfirmRegistrationOnPayment`.  If no row matches,
nothing changes and no trigger fires. -/
def completePayment (pid : Nat) (db : PaymentDb) : PaymentDb :=
  match db.payments.find? (fun p => p.paymentID == pid) with
  | none => db
  | some p =>
      match updatePayment pid (fun q => { q with status := PaymentStatus.completed })
          db.payments with
      | Except.error _ => db
      | Except.ok ps' =>
          { payments := ps',
            registrations :=
              confirmRegistrationOnPayment p.status PaymentStatus.completed
                p.relatedRegistrationID db.registrations }

/-- C2: completing a not-yet-completed payment that targets registration
`rid` rewrites the `Registrations` table so that exactly the rows whose
`RegistrationID` is `rid` and whose status is `pending` or `waitlisted`
advance to `confirmed`/`paid`; every other row — in particular one
already `cancelled` or `checked_in` — is left entirely unchanged. -/
theorem payment_completion_confirms
    (db : PaymentDb) (pid rid : Nat) (p : Payment)
    (hfind : db.payments.find? (fun q => q.paymentID == pid) = some p)
    (hOld : p.status ≠ PaymentStatus.completed)
    (hRel : p.relatedRegistrationID = some rid)
    (hXOR : PaymentXOR db.payments) :
    (completePayment pid db).registrations
      = db.registrations.map fun r =>
          if r.registrationID = rid ∧
              (r.status = RegStatus.pending ∨ r.status = RegStatus.waitlisted) then
            { r with status := RegStatus.confirmed, paymentStatus := RegPaymentStatus.paid }
          else r := by
  unfold completePayment
  rw [hfind]
  have hcond : (db.payments.all fun q => !(q.paymentID == pid) ||
      validPaymentRelation
        ({ q with status := PaymentStatus.completed } : Payment).relatedRegistrationID
        ({ q with status := PaymentStatus.completed } : Payment).relatedContractID) = true := by
    apply List.all_eq_true.mpr
    intro q hq
    rcases Bool.eq_false_or_eq_true (q.paymentID == pid) with e | e
    · simp only [e, Bool.not_true, Bool.false_or]
      exact hXOR q hq
    · simp only [e, Bool.not_false, Bool.true_or]
  rw [show updatePayment pid (fun q => { q with status := PaymentStatus.completed })
        db.payments
      = Except.ok (db.payments.map fun q =>
          if q.paymentID == pid then { q with status := PaymentStatus.completed } else q) by
    unfold updatePayment; rw [if_pos hcond]]
  dsimp only
  unfold confirmRegistrationOnPayment
  rw [hRel, if_pos ⟨hOld, rfl, rfl⟩]
  apply List.map_congr_left
  intro r _
  by_cases hc : r.registrationID = rid
  · simp only [hc, and_true, true_and]
  · have hne : ¬(some rid = some r.registrationID) := by
      intro hcontra
      exact hc (Option.some.inj hcontra).symm
    rw [if_neg (fun hcontra => hne hcontra.1), if_neg (fun hcontra => hc hcontra.1)]

/-- A pending registration (id 1) awaiting payment. -/
def wRegPending : Registration :=
  { registrationID := 1, userID := 2, eventID := 3, teamID := none,
    registrationDate := 0, status := RegStatus.pending,
    paymentStatus := RegPaymentStatus.pending, specialRequirements := none }

/-- Scenario C data: a pending 500 payment targeting registration 1. -/
def wPayDb : PaymentDb := { payments := [wPay], registrations := [wRegPending] }

theorem payment_completion_confirms_witness :
    (completePayment 1 wPayDb).registrations
      = wPayDb.registrations.map fun r =>
          if r.registrationID = 1 ∧
              (r.status = RegStatus.pending ∨ r.status = RegStatus.waitlisted) then
            { r with status := RegStatus.confirmed, paymentStatus := RegPaymentStatus.paid }
          else r :=
  payment_completion_confirms wPayDb 1 1 wPay (by decide) (by decide) (by decide) (by decide)

theorem completePayment_completed_noop (pid : Nat) (db : PaymentDb)
    (hAll : ∀ q ∈ db.payments, q.paymentID = pid → q.status = PaymentStatus.completed) :
    completePayment pid db = db := by
  have hmap : (db.payments.map fun q =>
      if q.paymentID == pid then { q with status := PaymentStatus.completed } else q)
      = db.payments := by
    rw [show (db.payments.map fun q =>
        if q.paymentID == pid then { q with status := PaymentStatus.completed } else q)
        = db.payments.map id from
      List.map_congr_left fun q hq => by
        rcases Bool.eq_false_or_eq_true (q.paymentID == pid) with eq | eq
        · rw [if_pos eq, ← hAll q hq (beq_iff_eq.mp eq)]; rfl
        · rw [if_neg (by simp [eq])]; rfl]
    exact List.map_id db.payments
  unfold completePayment
  rcases hfind : db.payments.find? (fun p => p.paymentID == pid) with _ | p
  · rw [hfind]
  · have hpmem : p ∈ db.payments := List.mem_of_find?_eq_some hfind
    have hpstat : p.status = PaymentStatus.completed := by
      apply hAll p hpmem
      have := List.find?_some hfind
      simpa using this
    rw [hfind]
    dsimp only
    unfold updatePayment
    rcases Bool.eq_false_or_eq_true (db.payments.all fun q => !(q.paymentID == pid) ||
        validPaymentRelation
          ({ q with status := PaymentStatus.completed } : Payment).relatedRegistrationID
          ({ q with status := PaymentStatus.completed } : Payment).relatedContractID)
        with hc | hc
    · rw [if_pos hc]
      dsimp only
      unfold confirmRegistrationOnPayment
      rw [if_neg (fun hcontra => hcontra.1 hpstat), hmap]
    · rw [if_neg (by simp [hc])]

theorem completePayment_eq_self_or (pid : Nat) (db : PaymentDb) :
    completePayment pid db = db ∨
    ∀ q ∈ (completePayment pid db).payments, q.paymentID = pid →
      q.status = PaymentStatus.completed := by
  unfold completePayment
  rcases hfind : db.payments.find? (fun p => p.paymentID == pid) with _ | p
  · rw [hfind]
    exact Or.inl rfl
  · rw [hfind]
    dsimp only
    unfold updatePayment
    rcases Bool.eq_false_or_eq_true (db.payments.all fun q => !(q.paymentID == pid) ||
        validPaymentRelation
          ({ q with status := PaymentStatus.completed } : Payment).relatedRegistrationID
          ({ q with status := PaymentStatus.completed } : Payment).relatedContractID)
        with hc | hc
    · rw [if_pos hc]
      dsimp only
      apply Or.inr
      intro q hq hqpid
      rcases List.mem_map.mp hq with ⟨q0, hq0, rfl⟩
      rcases Bool.eq_false_or_eq_true (q0.paymentID == pid) with e | e
      · simp only [e, if_true]
      · simp only [e, Bool.false_eq_true, if_false] at hqpid ⊢
        exact absurd hqpid (by simpa using e)
    · rw [if_neg (by simp [hc])]
      exact Or.inl rfl

/-- C4: `completePayment` is idempotent: running it twice on the same
payment leaves the same `Payments` and `Registrations` state as running
it once, and on a payment already `completed` it is a no-op (in
particular the `ConfirmRegistrationOnPayment` side effect does not
re-fire, because the trigger requires `OLD.Status != 'completed'`). -/
theorem completePayment_idempotent (pid : Nat) (db : PaymentDb) :
    completePayment pid (completePayment pid db) = completePayment pid db ∧
    ((∀ q ∈ db.payments, q.paymentID = pid → q.status = PaymentStatus.completed) →
      completePayment pid db = db) := by
  constructor
  · rcases completePayment_eq_self_or pid db with h | h
    · rw [h]
      exact h
    · exact completePayment_completed_noop pid (completePayment pid db) h
  · exact completePayment_completed_noop pid db

/-- A payment that is already completed. -/
def wPayDone : Payment :=
  { paymentID := 2, amount := 100, status := PaymentStatus.completed,
    relatedRegistrationID := some 1, relatedContractID := none }

/-- State holding an already-completed payment. -/
def wDoneDb : PaymentDb := { payments := [wPayDone], registrations := [wRegPending] }

theorem completePayment_idempotent_witness :
    completePayment 2 (completePayment 2 wDoneDb) = completePayment 2 wDoneDb ∧
    completePayment 2 wDoneDb = wDoneDb :=
  ⟨(completePayment_idempotent 2 wDoneDb).1,
   (completePayment_idempotent 2 wDoneDb).2 (by decide)⟩

/-! ## Registration creation routes -/

/-- A row of table `Events` (the columns relevant to event
registration: `EventID`, `Reg_Fee`, `RegistrationDeadline`; the
deadline column is nullable). -/
structure Event where
  eventID : Nat
  regFee : Nat
  registrationDeadline : Option Nat
  deriving DecidableEq, Repr

/-- Error responses of the registration routes. -/
inductive RegError
  | missingFields
  | userNotFound
  | eventNotFound
  | alreadyRegistered
  deriving DecidableEq, Repr

/-- The store visible to the registration routes. -/
structure RegDb where
  users : List Nat
  events : List Event
  registrations : List Registration
  nextRegistrationID : Nat
  deriving DecidableEq, Repr

/-- `POST /registration` (user-facing event registration): look the
event up (404 if absent), reject if a row for `(eventId, userId)` exists
(duplicate check, backed by the `unique_user_event_registration` key),
then `INSERT INTO Registrations (UserID, EventID, PaymentStatus, Status,
RegistrationDate, SpecialRequirements) VALUES (?, ?, 'pending',
'pending', NOW(), ?)`.  The route reads neither `Reg_Fee` nor
`RegistrationDeadline`. -/
def createRegistration (now userId eventId : Nat) (specialRequirements : Option String)
    (db : RegDb) : Except RegError RegDb :=
  match db.events.find? (fun e => e.eventID == eventId) with
  | none => Except.error RegError.eventNotFound
  | some _ =>
      if db.registrations.any fun r => r.eventID == eventId && r.userID == userId then
        Except.error RegError.alreadyRegistered
      else
        Except.ok { db with
          registrations := db.registrations ++
            [{ registrationID := db.nextRegistrationID, userID := userId,
               eventID := eventId, teamID := none, registrationDate := now,
               status := RegStatus.pending, paymentStatus := RegPaymentStatus.pending,
               specialRequirements := specialRequirements }],
          nextRegistrationID := db.nextRegistrationID + 1 }

/-- `POST /registration/api/registrations`: falsy-field check, user and
event lookups, duplicate check, then `INSERT INTO Registrations (UserID,
EventID, PaymentStatus) VALUES (?, ?, 'Pending')` — `Status` defaults to
`'pending'` and the enum value `'Pending'` is stored case-insensitively
as `'pending'`; the other columns take their schema defaults. -/
def createRegistrationApi (now userId eventId : Nat) (db : RegDb) :
    Except RegError RegDb :=
  if userId == 0 || eventId == 0 then
    Except.error RegError.missingFields
  else if !(db.users.contains userId) then
    Except.error RegError.userNotFound
  else
    match db.events.find? (fun e => e.eventID == eventId) with
    | none => Except.error RegError.eventNotFound
    | some _ =>
        if db.registrations.any fun r => r.userID == userId && r.eventID == eventId then
          Except.error RegError.alreadyRegistered
        else
          Except.ok { db with
            registrations := db.registrations ++
              [{ registrationID := db.nextRegistrationID, userID := userId,
                 eventID := eventId, teamID := none, registrationDate := now,
                 status := RegStatus.pending, paymentStatus := RegPaymentStatus.pending,
                 specialRequirements := none }],
            nextRegistrationID := db.nextRegistrationID + 1 }

/-- A call to one of the two registration-creating routes. -/
inductive RegOp
  | create (now userId eventId : Nat) (specialRequirements : Option String)
  | createApi (now userId eventId : Nat)

/-- Apply one call; a failed call inserts nothing. -/
def applyRegOp (db : RegDb) (op : RegOp) : RegDb :=
  match op with
  | RegOp.create now u ev sr =>
      match createRegistration now u ev sr db with
      | Except.ok db' => db'
      | Except.error _ => db
  | RegOp.createApi now u ev =>
      match createRegistrationApi now u ev db with
      | Except.ok db' => db'
      | Except.error _ => db

/-- Run a sequence of registration-creating calls. -/
def runRegOps (db : RegDb) (ops : List RegOp) : RegDb :=
  ops.foldl applyRegOp db

/-- The `unique_user_event_registration` invariant: no two registration
rows share the same `(UserID, EventID)` pair. -/
def UniqueUserEvent (db : RegDb) : Prop :=
  List.Pairwise (fun r1 r2 => r1.userID ≠ r2.userID ∨ r1.eventID ≠ r2.eventID)
    db.registrations

instance (db : RegDb) : Decidable (UniqueUserEvent db) := by
  unfold UniqueUserEvent; infer_instance

theorem insert_preserves_unique {regs : List Registration} {row : Registration}
    (h : List.Pairwise (fun r1 r2 => r1.userID ≠ r2.userID ∨ r1.eventID ≠ r2.eventID) regs)
    (hnew : ∀ r ∈ regs, r.userID ≠ row.userID ∨ r.eventID ≠ row.eventID) :
    List.Pairwise (fun r1 r2 => r1.userID ≠ r2.userID ∨ r1.eventID ≠ r2.eventID)
      (regs ++ [row]) := by
  rw [List.pairwise_append]
  refine ⟨h, List.pairwise_singleton _ _, fun a ha b hb => ?_⟩
  rw [List.mem_singleton.mp hb]
  exact hnew a ha

theorem any_pair_false {regs : List Registration} {u ev : Nat}
    (h : (regs.any fun r => r.eventID == ev && r.userID == u) = false) :
    ∀ r ∈ regs, r.userID ≠ u ∨ r.eventID ≠ ev := by
  intro r hr
  have hne := List.any_eq_false.mp h r hr
  simp only [Bool.and_eq_true, beq_iff_eq, not_and] at hne
  by_cases he : r.eventID = ev
  · exact Or.inl (hne he)
  · exact Or.inr he

theorem any_pair_false' {regs : List Registration} {u ev : Nat}
    (h : (regs.any fun r => r.userID == u && r.eventID == ev) = false) :
    ∀ r ∈ regs, r.userID ≠ u ∨ r.eventID ≠ ev := by
  intro r hr
  have hne := List.any_eq_false.mp h r hr
  simp only [Bool.and_eq_true, beq_iff_eq, not_and] at hne
  by_cases hu : r.userID = u
  · exact Or.inr (hne hu)
  · exact Or.inl hu

theorem applyRegOp_unique (db : RegDb) (op : RegOp) (h : UniqueUserEvent db) :
    UniqueUserEvent (applyRegOp db op) := by
  cases op with
  | create now u ev sr =>
      unfold applyRegOp createRegistration
      dsimp only
      rcases hfind : db.events.find? (fun e => e.eventID == ev) with _ | e
      · rw [hfind]
        exact h
      · rw [hfind]
        dsimp only
        rcases Bool.eq_false_or_eq_true
            (db.registrations.any fun r => r.eventID == ev && r.userID == u)
            with hdup | hdup
        · rw [if_pos hdup]
          exact h
        · rw [if_neg (by simp [hdup])]
          dsimp only
          unfold UniqueUserEvent at h ⊢
          dsimp only at h ⊢
          exact insert_preserves_unique h (any_pair_false hdup)
  | createApi now u ev =>
      unfold applyRegOp createRegistrationApi
      dsimp only
      rcases Bool.eq_false_or_eq_true ((u == 0) || (ev == 0)) with hmiss | hmiss
      · rw [if_pos hmiss]
        exact h
      · rw [if_neg (by simp [hmiss])]
        rcases Bool.eq_false_or_eq_true (db.users.contains u) with huser | huser
        · rw [if_neg (by rw [huser]; simp)]
          rcases hfind : db.events.find? (fun e => e.eventID == ev) with _ | e
          · rw [hfind]
            exact h
          · rw [hfind]
            dsimp only
            rcases Bool.eq_false_or_eq_true
                (db.registrations.any fun r => r.userID == u && r.eventID == ev)
                with hdup | hdup
            · rw [if_pos hdup]
              exact h
            · rw [if_neg (by simp [hdup])]
              dsimp only
              unfold UniqueUserEvent at h ⊢
              dsimp only at h ⊢
              exact insert_preserves_unique h (any_pair_false' hdup)
        · rw [if_pos (by rw [huser]; rfl)]
          exact h

/-- C6: after any sequence of registration-creating calls at most one
registration row exists per `(userId, eventId)` pair, and a call for a
pair that already has a row (and whose event exists, as the foreign key
guarantees) fails with the duplicate-registration error — so it inserts
nothing. -/
theorem registration_unique_user_event (db : RegDb) (ops : List RegOp)
    (h : UniqueUserEvent db) :
    UniqueUserEvent (runRegOps db ops) ∧
    ∀ now u ev sr r, r ∈ db.registrations → r.userID = u → r.eventID = ev →
      (∃ e ∈ db.events, e.eventID = ev) →
      createRegistration now u ev sr db = Except.error RegError.alreadyRegistered := by
  constructor
  · induction ops generalizing db with
    | nil => exact h
    | cons op ops ih => exact ih (applyRegOp db op) (applyRegOp_unique db op h)
  · rintro now u ev sr r hr hu hev ⟨e, he, heid⟩
    unfold createRegistration
    have hsome : (db.events.find? fun e' => e'.eventID == ev).isSome := by
      rw [List.find?_isSome]
      exact ⟨e, he, by simpa using heid⟩
    rcases Option.isSome_iff_exists.mp hsome with ⟨x, hx⟩
    rw [hx]
    dsimp only
    rw [if_pos (List.any_eq_true.mpr ⟨r, hr, by simp [hu, hev]⟩)]

/-- An event with a nonzero fee and a live deadline. -/
def wEvent : Event := { eventID := 3, regFee := 500, registrationDeadline := some 100 }

/-- An existing registration of user 2 for event 3. -/
def wReg6 : Registration :=
  { registrationID := 1, userID := 2, eventID := 3, teamID := none,
    registrationDate := 1, status := RegStatus.pending,
    paymentStatus := RegPaymentStatus.pending, specialRequirements := none }

/-- Store with one event and one existing registration. -/
def wRegDb : RegDb :=
  { users := [2], events := [wEvent], registrations := [wReg6], nextRegistrationID := 2 }

theorem registration_unique_user_event_witness :
    UniqueUserEvent (runRegOps wRegDb [RegOp.create 5 2 3 none]) ∧
    ∀ now u ev sr r, r ∈ wRegDb.registrations → r.userID = u → r.eventID = ev →
      (∃ e ∈ wRegDb.events, e.eventID = ev) →
      createRegistration now u ev sr wRegDb = Except.error RegError.alreadyRegistered :=
  registration_unique_user_event wRegDb [RegOp.create 5 2 3 none] (by decide)

/-- C7 (amended): every successful registration-creating call appends a
single row with `status = pending` and `paymentStatus = pending` — the
routes never read the event's `Reg_Fee`, so `not_required` is never
chosen for zero-fee events. -/
theorem created_registration_statuses (now u ev : Nat) (sr : Option String) (db : RegDb) :
    (∀ db', createRegistration now u ev sr db = Except.ok db' →
      ∃ row, db'.registrations = db.registrations ++ [row] ∧
        row.status = RegStatus.pending ∧ row.paymentStatus = RegPaymentStatus.pending) ∧
    (∀ db', createRegistrationApi now u ev db = Except.ok db' →
      ∃ row, db'.registrations = db.registrations ++ [row] ∧
        row.status = RegStatus.pending ∧ row.paymentStatus = RegPaymentStatus.pending) := by
  constructor
  · intro db' hok
    unfold createRegistration at hok
    rcases hfind : db.events.find? (fun e => e.eventID == ev) with _ | e
    · rw [hfind] at hok
      exact absurd hok (by simp)
    · rw [hfind] at hok
      dsimp only at hok
      rcases Bool.eq_false_or_eq_true
          (db.registrations.any fun r => r.eventID == ev && r.userID == u)
          with hdup | hdup
      · rw [if_pos hdup] at hok
        exact absurd hok (by simp)
      · rw [if_neg (by simp [hdup])] at hok
        rw [← Except.ok.inj hok]
        exact ⟨_, rfl, rfl, rfl⟩
  · intro db' hok
    unfold createRegistrationApi at hok
    rcases Bool.eq_false_or_eq_true ((u == 0) || (ev == 0)) with hmiss | hmiss
    · rw [if_pos hmiss] at hok
      exact absurd hok (by simp)
    · rw [if_neg (by simp [hmiss])] at hok
      rcases Bool.eq_false_or_eq_true (db.users.contains u) with huser | huser
      · rw [if_neg (by rw [huser]; simp)] at hok
        rcases hfind : db.events.find? (fun e => e.eventID == ev) with _ | e
        · rw [hfind] at hok
          exact absurd hok (by simp)
        · rw [hfind] at hok
          dsimp only at hok
          rcases Bool.eq_false_or_eq_true
              (db.registrations.any fun r => r.userID == u && r.eventID == ev)
              with hdup | hdup
          · rw [if_pos hdup] at hok
            exact absurd hok (by simp)
          · rw [if_neg (by simp [hdup])] at hok
            rw [← Except.ok.inj hok]
            exact ⟨_, rfl, rfl, rfl⟩
      · rw [if_pos (by rw [huser]; rfl)] at hok
        exact absurd hok (by simp)

/-- A zero-fee event (`Reg_Fee = 0`). -/
def freeEvent : Event := { eventID := 7, regFee := 0, registrationDeadline := some 100 }

/-- Store with only the zero-fee event. -/
def freeDb : RegDb :=
  { users := [4], events := [freeEvent], registrations := [], nextRegistrationID := 1 }

/-- The row the registration route inserts for the zero-fee event. -/
def zeroFeeRow : Registration :=
  { registrationID := 1, userID := 4, eventID := 7, teamID := none,
    registrationDate := 5, status := RegStatus.pending,
    paymentStatus := RegPaymentStatus.pending, specialRequirements := none }

/-- C7 counterexample: registering for an event whose fee is 0 inserts
a row with `paymentStatus = pending`, not `not_required` — the route
sets `'pending'` unconditionally and never consults `Reg_Fee`. -/
theorem zero_fee_payment_status_counterexample :
    freeEvent.regFee = 0 ∧
    createRegistration 5 4 7 none freeDb
      = Except.ok { freeDb with registrations := [zeroFeeRow], nextRegistrationID := 2 } ∧
    zeroFeeRow.paymentStatus = RegPaymentStatus.pending ∧
    RegPaymentStatus.pending ≠ RegPaymentStatus.not_required :=
  ⟨rfl, rfl, rfl, by decide⟩

theorem created_registration_statuses_witness :
    (∀ db', createRegistration 5 4 7 none freeDb = Except.ok db' →
      ∃ row, db'.registrations = freeDb.registrations ++ [row] ∧
        row.status = RegStatus.pending ∧ row.paymentStatus = RegPaymentStatus.pending) ∧
    (∀ db', createRegistrationApi 5 4 7 freeDb = Except.ok db' →
      ∃ row, db'.registrations = freeDb.registrations ++ [row] ∧
        row.status = RegStatus.pending ∧ row.paymentStatus = RegPaymentStatus.pending) :=
  created_registration_statuses 5 4 7 none freeDb

/-- An event whose registration deadline (day 10) has passed. -/
def deadlineEvent : Event := { eventID := 8, regFee := 500, registrationDeadline := some 10 }

/-- Store with only the expired-deadline event. -/
def lateDb : RegDb :=
  { users := [4], events := [deadlineEvent], registrations := [], nextRegistrationID := 1 }

/-- The row inserted by the late call. -/
def lateRow : Registration :=
  { registrationID := 1, userID := 4, eventID := 8, teamID := none,
    registrationDate := 20, status := RegStatus.pending,
    paymentStatus := RegPaymentStatus.pending, specialRequirements := none }

/-- C8: the registration routes never read `RegistrationDeadline`
(documented in the schema as the timestamp after which registration is
closed): a call at time 20, strictly later than the deadline 10, still
succeeds and inserts the registration row instead of failing. -/
theorem late_registration_accepted :
    deadlineEvent.registrationDeadline = some 10 ∧ 10 < 20 ∧
    createRegistration 20 4 8 none lateDb
      = Except.ok { lateDb with registrations := [lateRow], nextRegistrationID := 2 } :=
  ⟨rfl, by decide, rfl⟩

/-! ## Team membership routes -/

/-- `Status` column of table `TeamMembers`:
`ENUM('active', 'inactive', 'pending_invite')`. -/
inductive MemberStatus
  | active
  | inactive
  | pending_invite
  deriving DecidableEq, Repr

/-- A row of table `Teams` (the columns the member routes read). -/
structure Team where
  teamID : Nat
  leaderID : Nat
  deriving DecidableEq, Repr

/-- A row of table `TeamMembers`. -/
structure TeamMember where
  teamID : Nat
  userID : Nat
  role : String
  status : MemberStatus
  deriving DecidableEq, Repr

/-- The store visible to the team-member routes. -/
structure TeamsDb where
  teams : List Team
  members : List TeamMember
  deriving DecidableEq, Repr

/-- Error responses of the team-member routes. -/
inductive TeamError
  | forbidden
  | teamFull
  | alreadyMember
  deriving DecidableEq, Repr

/-- The active-member count of a team, as queried by
`SELECT COUNT(*) FROM TeamMembers WHERE TeamID = ? AND Status = "active"`. -/
def activeMemberCount (db : TeamsDb) (tid : Nat) : Nat :=
  (db.members.filter fun m => m.teamID == tid && m.status == MemberStatus.active).length

/-- `POST /teams/:id/members`: reject unless the requester is the team's
leader; reject with the team-full conflict once the active count has
reached 3; reject duplicates; otherwise insert the member (the `Status`
column defaults to `'active'`). -/
def addTeamMember (requesterId tid userId : Nat) (memberRole : String) (db : TeamsDb) :
    Except TeamError TeamsDb :=
  match db.teams.find? (fun t => t.teamID == tid) with
  | none => Except.error TeamError.forbidden
  | some t =>
      if t.leaderID != requesterId then
        Except.error TeamError.forbidden
      else if 3 ≤ activeMemberCount db tid then
        Except.error TeamError.teamFull
      else if db.members.any fun m => m.teamID == tid && m.userID == userId then
        Except.error TeamError.alreadyMember
      else
        Except.ok { db with members := db.members ++
          [{ teamID := tid, userID := userId, role := memberRole,
             status := MemberStatus.active }] }

/-- `DELETE /teams/:id/members/:userId`: the leader or the member
themselves may remove; `DELETE FROM TeamMembers WHERE TeamID = ? AND
UserID = ?`. -/
def removeTeamMember (requesterId tid userId : Nat) (db : TeamsDb) :
    Except TeamError TeamsDb :=
  match db.teams.find? (fun t => t.teamID == tid) with
  | none => Except.error TeamError.forbidden
  | some t =>
      if t.leaderID != requesterId && userId != requesterId then
        Except.error TeamError.forbidden
      else
        Except.ok { db with members :=
            db.members.filter (fun m => !(m.teamID == tid && m.userID == userId)) }

/-- A member-addition or member-removal call. -/
inductive TeamOp
  | add (requesterId teamId userId : Nat) (memberRole : String)
  | remove (requesterId teamId userId : Nat)

/-- Apply one call; a rejected call changes nothing. -/
def applyTeamOp (db : TeamsDb) (op : TeamOp) : TeamsDb :=
  match op with
  | TeamOp.add req tid uid memberRole =>
      match addTeamMember req tid uid memberRole db with
      | Except.ok db' => db'
      | Except.error _ => db
  | TeamOp.remove req tid uid =>
      match removeTeamMember req tid uid db with
      | Except.ok db' => db'
      | Except.error _ => db

/-- Run a sequence of member-addition and member-removal calls. -/
def runTeamOps (db : TeamsDb) (ops : List TeamOp) : TeamsDb :=
  ops.foldl applyTeamOp db

/-- Team-size invariant: no team has more than 3 active members. -/
def TeamBound (db : TeamsDb) : Prop :=
  ∀ tid, activeMemberCount db tid ≤ 3

theorem activeCount_append (db : TeamsDb) (row : TeamMember) (tid : Nat) :
    activeMemberCount { db with members := db.members ++ [row] } tid
      = activeMemberCount db tid +
        (if row.teamID == tid && row.status == MemberStatus.active then 1 else 0) := by
  unfold activeMemberCount
  dsimp only
  rw [List.filter_append, List.length_append, List.filter_singleton]
  rcases Bool.eq_false_or_eq_true
      (row.teamID == tid && row.status == MemberStatus.active) with e | e
  · rw [e]
    rfl
  · rw [e]
    rfl

theorem activeCount_remove_le (db : TeamsDb) (keep : TeamMember → Bool) (tid : Nat) :
    activeMemberCount { db with members := db.members.filter keep } tid
      ≤ activeMemberCount db tid := by
  unfold activeMemberCount
  dsimp only
  exact List.Sublist.length_le
    (List.Sublist.filter _ (List.filter_sublist db.members))

theorem applyTeamOp_bound (db : TeamsDb) (op : TeamOp) (h : TeamBound db) :
    TeamBound (applyTeamOp db op) := by
  cases op with
  | add req tid uid memberRole =>
      unfold applyTeamOp addTeamMember
      dsimp only
      rcases hfind : db.teams.find? (fun t => t.teamID == tid) with _ | t
      · rw [hfind]
        exact h
      · rw [hfind]
        dsimp only
        rcases Bool.eq_false_or_eq_true (t.leaderID != req) with hlead | hlead
        · rw [if_pos hlead]
          exact h
        · rw [if_neg (by simp [hlead])]
          by_cases hfull : 3 ≤ activeMemberCount db tid
          · rw [if_pos hfull]
            exact h
          · rw [if_neg hfull]
            rcases Bool.eq_false_or_eq_true
                (db.members.any fun m => m.teamID == tid && m.userID == uid)
                with hdup | hdup
            · rw [if_pos hdup]
              exact h
            · rw [if_neg (by simp [hdup])]
              dsimp only
              intro tid'
              rw [activeCount_append]
              by_cases htid : tid = tid'
              · subst htid
                rw [if_pos (by simp)]
                omega
              · rw [if_neg (by simp [htid])]
                simpa using h tid'
  | remove req tid uid =>
      unfold applyTeamOp removeTeamMember
      dsimp only
      rcases hfind : db.teams.find? (fun t => t.teamID == tid) with _ | t
      · rw [hfind]
        exact h
      · rw [hfind]
        dsimp only
        rcases Bool.eq_false_or_eq_true (t.leaderID != req && uid != req) with e | e
        · rw [if_pos e]
          exact h
        · rw [if_neg (by simp [e])]
          intro tid'
          exact le_trans (activeCount_remove_le db _ tid') (h tid')

/-- C9: after any sequence of member-addition (`POST
/teams/:id/members`) and member-removal (`DELETE
/teams/:id/members/:userId`) calls, no team has more than 3 active
members; an addition attempted by the leader while the team already has
3 active members is rejected with the team-full conflict and inserts
nothing. -/
theorem team_member_bound (db : TeamsDb) (ops : List TeamOp) (h : TeamBound db) :
    TeamBound (runTeamOps db ops) ∧
    ∀ req tid uid memberRole t,
      db.teams.find? (fun x => x.teamID == tid) = some t →
      t.leaderID = req → activeMemberCount db tid = 3 →
      addTeamMember req tid uid memberRole db = Except.error TeamError.teamFull := by
  constructor
  · induction ops generalizing db with
    | nil => exact h
    | cons op ops ih => exact ih (applyTeamOp db op) (applyTeamOp_bound db op h)
  · intro req tid uid memberRole t hfind hlead hcount
    unfold addTeamMember
    rw [hfind]
    dsimp only
    rw [if_neg (by simp [hlead]), if_pos (Nat.le_of_eq hcount.symm)]

/-- A team (id 1) led by user 2. -/
def wTeam : Team := { teamID := 1, leaderID := 2 }

/-- Scenario D data: the team already has 3 active members. -/
def wTeamsDb : TeamsDb :=
  { teams := [wTeam],
    members :=
      [{ teamID := 1, userID := 2, role := "Leader", status := MemberStatus.active },
       { teamID := 1, userID := 3, role := "Member", status := MemberStatus.active },
       { teamID := 1, userID := 4, role := "Member", status := MemberStatus.active }] }

theorem team_member_bound_witness :
    TeamBound (runTeamOps wTeamsDb [TeamOp.add 2 1 5 "Member"]) ∧
    ∀ req tid uid memberRole t,
      wTeamsDb.teams.find? (fun x => x.teamID == tid) = some t →
      t.leaderID = req → activeMemberCount wTeamsDb tid = 3 →
      addTeamMember req tid uid memberRole wTeamsDb = Except.error TeamError.teamFull :=
  team_member_bound wTeamsDb [TeamOp.add 2 1 5 "Member"]
    (fun _ => le_trans (List.length_filter_le _ _)
      (by decide : wTeamsDb.members.length ≤ 3))

/-! ## Application-level registration payment route -/

/-- A `Payments` row as the application's payment route writes it
(`POST /api/payments/registration` inserts `ParticipantUserID`,
`Amount`, `PaymentMethod`, `Status`, `Description`, `PaymentDate`). -/
structure RegPayment where
  paymentID : Nat
  participantUserID : Nat
  amount : Nat
  paymentMethod : String
  status : PaymentStatus
  description : String
  paymentDate : Nat
  deriving DecidableEq, Repr

/-- A `Registrations` row as the payment route sees it (this schema
variant carries a `PaymentID` column, which the route updates). -/
structure RegistrationRow where
  userID : Nat
  eventID : Nat
  status : RegStatus
  paymentStatus : RegPaymentStatus
  paymentID : Option Nat
  deriving DecidableEq, Repr

/-- The store visible to the registration-payment route. -/
structure PaymentsRouteState where
  payments : List RegPayment
  registrations : List RegistrationRow
  deriving DecidableEq, Repr

/-- `POST /api/payments/registration`: `INSERT INTO Payments (...)
VALUES (?, ?, ?, 'completed', 'Event Registration Payment', NOW())`,
then `UPDATE Registrations SET PaymentStatus = 'paid', PaymentID = ?
WHERE UserID = ? AND EventID = ?`.  The trigger
`ConfirmRegistrationOnPayment` is declared `AFTER UPDATE ON Payments`,
so the INSERT does not fire it, and no statement of this route writes
`Registrations.Status`. -/
def processRegistrationPayment (participantId eventId amount : Nat)
    (paymentMethod : String) (now newPaymentId : Nat)
    (s : PaymentsRouteState) : PaymentsRouteState :=
  { payments := s.payments ++
      [{ paymentID := newPaymentId, participantUserID := participantId,
         amount := amount, paymentMethod := paymentMethod,
         status := PaymentStatus.completed,
         description := "Event Registration Payment", paymentDate := now }],
    registrations := s.registrations.map fun r =>
      if r.userID == participantId && r.eventID == eventId then
        { r with paymentStatus := RegPaymentStatus.paid,
                 paymentID := some newPaymentId }
      else r }

/-- C10: the registration-payment route inserts the payment row directly
in status `completed`, updates only `PaymentStatus` and `PaymentID` of
the matching registrations, and leaves every registration's `Status`
unchanged — a `pending` registration stays `pending` on this path. -/
theorem registration_payment_route_frame
    (s : PaymentsRouteState) (participantId eventId amount : Nat)
    (paymentMethod : String) (now newPid : Nat) :
    ((processRegistrationPayment participantId eventId amount paymentMethod now newPid
        s).registrations.map fun r => r.status)
      = s.registrations.map (fun r => r.status) ∧
    (processRegistrationPayment participantId eventId amount paymentMethod now newPid
        s).payments
      = s.payments ++
        [{ paymentID := newPid, participantUserID := participantId, amount := amount,
           paymentMethod := paymentMethod, status := PaymentStatus.completed,
           description := "Event Registration Payment", paymentDate := now }] ∧
    ∀ r ∈ s.registrations,
      (r.userID = participantId ∧ r.eventID = eventId →
        { r with paymentStatus := RegPaymentStatus.paid, paymentID := some newPid }
          ∈ (processRegistrationPayment participantId eventId amount paymentMethod now
              newPid s).registrations) ∧
      (¬(r.userID = participantId ∧ r.eventID = eventId) →
        r ∈ (processRegistrationPayment participantId eventId amount paymentMethod now
              newPid s).registrations) := by
  refine ⟨?_, rfl, ?_⟩
  · dsimp only [processRegistrationPayment]
    rw [List.map_map]
    apply List.map_congr_left
    intro r _
    rcases Bool.eq_false_or_eq_true (r.userID == participantId && r.eventID == eventId)
        with e | e
    · simp only [Function.comp_apply, e, if_true]
    · simp only [Function.comp_apply, e, Bool.false_eq_true, if_false]
  · intro r hr
    constructor
    · rintro ⟨hu, he⟩
      dsimp only [processRegistrationPayment]
      exact List.mem_map.mpr ⟨r, hr, by rw [if_pos (by simp [hu, he])]⟩
    · intro hne
      dsimp only [processRegistrationPayment]
      exact List.mem_map.mpr ⟨r, hr, by rw [if_neg (fun hc => hne (by simpa using hc))]⟩

/-- A pending registration row for user 4 and event 7. -/
def wRouteReg : RegistrationRow :=
  { userID := 4, eventID := 7, status := RegStatus.pending,
    paymentStatus := RegPaymentStatus.pending, paymentID := none }

/-- Route state with one pending registration and no payments. -/
def wRouteState : PaymentsRouteState := { payments := [], registrations := [wRouteReg] }

theorem registration_payment_route_frame_witness :
    ((processRegistrationPayment 4 7 500 "cash" 9 1 wRouteState).registrations.map
        fun r => r.status) = wRouteState.registrations.map (fun r => r.status) ∧
    { wRouteReg with paymentStatus := RegPaymentStatus.paid, paymentID := some 1 }
      ∈ (processRegistrationPayment 4 7 500 "cash" 9 1 wRouteState).registrations :=
  ⟨(registration_payment_route_frame wRouteState 4 7 500 "cash" 9 1).1,
   ((registration_payment_route_frame wRouteState 4 7 500 "cash" 9 1).2.2 wRouteReg
      (by decide)).1 ⟨rfl, rfl⟩⟩

end NASCON
